import Mathlib

/-!
Shallow embedding of the Oak HID device layer (`src/rig/OakHidBase.cpp`) of the
poes-usrp repository, together with theorems settling the frozen claims about it.

Conventions of the embedding:
* Machine bytes are `Nat` values (the source stores `unsigned char`); the feature
  report is a 32-byte buffer modelled as a function `Nat → Nat` indexed by byte
  offset (offsets ≥ 32 are never touched by any operation).
* C out-parameters become extra components of the returned tuple; a function that
  leaves an out-parameter untouched on an error path returns the previous value.
* The kernel HID device is modelled as an explicit state machine (`OakDevice`):
  the `ioctl`-backed primitives `readFeatureReport` / `sendFeatureReport` become
  the state-transition fields `readFeature` / `sendFeature`.
* The source's unbounded polling loops are given explicit fuel; exhausting the
  fuel yields `none` (the transaction did not complete within that many reads).
-/

namespace OakHid

/-- Status codes of the Oak layer. Modelled from the spec (§3 `StatusCode`, a
closed enumeration); the declaring header `OakHidBase.h` is not part of the
provided sources, but every status is also named in `OakHidBase.cpp`. -/
inductive EOakStatus where
  | eOakStatusOK
  | eOakStatusErrorOpeningFile
  | eOakStatusInvalidDeviceType
  | eOakStatusInternalError
  | eOakStatusInvalidStringDescriptorIndex
  | eOakStatusReadError
  | eOakStatusWriteError
deriving DecidableEq, Repr

open EOakStatus

/-- A feature report: a 32-byte buffer (`unsigned char[kFeatureReportSize]`,
spec §3 `FeatureReport`), modelled as bytes indexed by offset. -/
def OakFeatureReport : Type := Nat → Nat

/-- `kFeatureReportSize`: the report is 32 bytes (spec §3; also visible in the
source's `printFeatureReport`, which prints bytes 0..31). -/
def kFeatureReportSize : Nat := 32

/-- `putStringInReport` (`OakHidBase.cpp:137`): clamp the string to 20 bytes and
`memcpy` it into the report starting at byte 5. Always returns OK. The string
is a byte list; the copy is modelled pointwise. -/
def putStringInReport (report : OakFeatureReport) (theString : List Nat) :
    EOakStatus × OakFeatureReport :=
  let str := if theString.length > 20 then theString.take 20 else theString
  (eOakStatusOK,
   fun i => if 5 ≤ i ∧ i < 5 + str.length then str.getD (i - 5) 0 else report i)

/-- Scan of a NUL-terminated C string inside a report: collect bytes from
offset `i` until a zero byte, with explicit fuel. In `getStringFromReport` the
scan starts at offset 1 after byte 21 has been zeroed, so fuel 21 (offsets
1..21) always reaches a terminator. -/
def cStringAux (r : OakFeatureReport) : Nat → Nat → List Nat
  | 0, _ => []
  | fuel + 1, i => if r i = 0 then [] else r i :: cStringAux r fuel (i + 1)

/-- `getStringFromReport` (`OakHidBase.cpp:154`): set byte 21 to 0 ("buffer
overflow safety"), then read the NUL-terminated string starting at byte 1.
Returns (status, mutated report, extracted string); always OK. -/
def getStringFromReport (report : OakFeatureReport) :
    EOakStatus × OakFeatureReport × List Nat :=
  let r := fun i => if i = 21 then 0 else report i
  (eOakStatusOK, r, cStringAux r 21 1)

/-- The HID field descriptor (`struct hiddev_field_info` from the system header
`linux/hiddev.h`), restricted to the fields the source reads. The physical
bounds are modelled as mathematical integers (the spec's §3 "physical value
range"); `unit_exponent` and `unit` are unsigned (`__u32`), modelled as `Nat`. -/
structure hiddev_field_info where
  physical_minimum : Int
  physical_maximum : Int
  unit_exponent : Nat
  unit : Nat
deriving DecidableEq, Repr

/-- `getFieldExponent` (`OakHidBase.cpp:260`): raw values ≥ 8 are offset by −16.
(The source computes `unit_exponent - 16` on the unsigned raw field and returns
it as `int`; for raw nibble values 0..15 this equals the integer `raw − 16`.) -/
def getFieldExponent (finfo : hiddev_field_info) : Int :=
  if 8 ≤ finfo.unit_exponent then (finfo.unit_exponent : Int) - 16
  else (finfo.unit_exponent : Int)

/-- `isFieldSigned` (`OakHidBase.cpp:272`): signed iff the physical minimum is
negative. -/
def isFieldSigned (finfo : hiddev_field_info) : Bool :=
  finfo.physical_minimum < 0

/-- `getFieldBitSize` (`OakHidBase.cpp:284`): smallest listed width covering
`physical_maximum - physical_minimum` (the source widens the range to
`long long`; the subtraction is modelled exactly on `Int`). -/
def getFieldBitSize (finfo : hiddev_field_info) : Nat :=
  let physicalRange : Int := finfo.physical_maximum - finfo.physical_minimum
  if physicalRange ≤ 0xff then 8
  else if physicalRange ≤ 0xffff then 16
  else if physicalRange ≤ 0xffffffff then 32
  else 64

/-- `std::string::rfind(c)`: index of the last occurrence of `c`, `none` when
absent (the source compares the result against `(signed)string::npos`). -/
def rfind : List Char → Char → Option Nat
  | [], _ => none
  | x :: xs, c =>
    match rfind xs c with
    | some i => some (i + 1)
    | none => if x = c then some 0 else none

/-- `getFieldUnit` (`OakHidBase.cpp:303`): extract the unit between the last
`[` and the last `]` of the channel name. The device-side channel-name query
(`getChannelName`, a string-descriptor `ioctl`) is abstracted as its result
`nameResult`; `outFieldUnit` is the caller's out-parameter, returned unchanged
on every error path. `substr(begin, end-begin)` is `drop`/`take`. -/
def getFieldUnit (nameResult : EOakStatus × List Char) (outFieldUnit : List Char) :
    EOakStatus × List Char :=
  if nameResult.1 ≠ eOakStatusOK then (nameResult.1, outFieldUnit)
  else
    let name := nameResult.2
    match rfind name '[' with
    | none => (eOakStatusInternalError, outFieldUnit)
    | some b0 =>
      match rfind name ']' with
      | none => (eOakStatusInternalError, outFieldUnit)
      | some e =>
        if e ≤ b0 + 1 then (eOakStatusInternalError, outFieldUnit)
        else (eOakStatusOK, (name.drop (b0 + 1)).take (e - (b0 + 1)))

/-- Abstract model of the kernel HID device behind one handle: `readFeature`
models `readFeatureReport` (two `ioctl`s; on success the caller's buffer is
overwritten with the returned report, on failure it is left untouched — the
source returns before the copy loop), `sendFeature` models `sendFeatureReport`
(which only reads the report). `σ` is the device's internal state. -/
structure OakDevice (σ : Type) where
  readFeature : σ → σ × EOakStatus × OakFeatureReport
  sendFeature : σ → OakFeatureReport → σ × EOakStatus

/-- One polling loop of `sendReportAndWaitForReply` (`OakHidBase.cpp:454` and
`:464`): `do { status = readFeatureReport(buf); if (status != OK) return status; }
while (buf[0] != 0xff)`. `buf` is the current content of the buffer being read
into; a failed read leaves it unchanged, a successful one replaces it. Fuel
bounds the number of reads; `none` means the loop did not exit within the fuel
(the source loops without bound). -/
def waitLoop {σ : Type} (dev : OakDevice σ) :
    Nat → σ → OakFeatureReport → Option (σ × EOakStatus × OakFeatureReport)
  | 0, _, _ => none
  | fuel + 1, s, buf =>
    let r := dev.readFeature s
    if r.2.1 = eOakStatusOK then
      if r.2.2 0 = 0xff then some (r.1, eOakStatusOK, r.2.2)
      else waitLoop dev fuel r.1 r.2.2
    else some (r.1, r.2.1, buf)

/-- `sendReportAndWaitForReply` (`OakHidBase.cpp:449`): wait until the device is
ready (polling into the static scratch `tempReport`, whose prior content never
affects the result and is modelled as zeros), send the caller's report, then
poll into the caller's report until a reply with byte 0 = 0xff arrives. The
returned report is the caller's buffer at function exit (unchanged on every
error path before the second loop). -/
def sendReportAndWaitForReply {σ : Type} (dev : OakDevice σ) (fuel : Nat) (s : σ)
    (report : OakFeatureReport) : Option (σ × EOakStatus × OakFeatureReport) :=
  match waitLoop dev fuel s (fun _ => 0) with
  | none => none
  | some (s1, st, _) =>
    if st = eOakStatusOK then
      let sd := dev.sendFeature s1 report
      if sd.2 = eOakStatusOK then waitLoop dev fuel sd.1 report
      else some (sd.1, sd.2, report)
    else some (s1, st, report)

/-- `getUserDeviceName` (`OakHidBase.cpp:169`): build the command report
`{ 1, persistent ? 1 : 0, 0x15, 0, 0 }` (remaining bytes zero-initialised),
drive it through the protocol engine — whose returned status the source
discards — and decode the string from the resulting buffer. -/
def getUserDeviceName {σ : Type} (dev : OakDevice σ) (fuel : Nat) (s : σ)
    (persistent : Bool) : Option (σ × EOakStatus × List Nat) :=
  let report : OakFeatureReport := fun i =>
    if i = 0 then 1
    else if i = 1 then (if persistent then 1 else 0)
    else if i = 2 then 0x15 else 0
  match sendReportAndWaitForReply dev fuel s report with
  | none => none
  | some (s1, _engineStatus, report1) =>
    let d := getStringFromReport report1
    some (s1, d.1, d.2.2)

/-- `getUserChannelName` (`OakHidBase.cpp:225`): as `getUserDeviceName`, but
byte 3 carries `(unsigned char)channelIndex`. The engine status is again
discarded by the source. -/
def getUserChannelName {σ : Type} (dev : OakDevice σ) (fuel : Nat) (s : σ)
    (channelIndex : Nat) (persistent : Bool) : Option (σ × EOakStatus × List Nat) :=
  let report : OakFeatureReport := fun i =>
    if i = 0 then 1
    else if i = 1 then (if persistent then 1 else 0)
    else if i = 2 then 0x15
    else if i = 3 then channelIndex % 256 else 0
  match sendReportAndWaitForReply dev fuel s report with
  | none => none
  | some (s1, _engineStatus, report1) =>
    let d := getStringFromReport report1
    some (s1, d.1, d.2.2)

/-- `ChannelInfo` (spec §3; declared in the header `OakHidBase.h`, not under
the provided sources): the aggregate filled by `getChannelInfo`. -/
structure ChannelInfo where
  channelName : List Char
  persistentUserChannelName : List Nat
  volatileUserChannelName : List Nat
  isSigned : Bool
  bitSize : Nat
  unitExponent : Int
  unitCode : Nat
  unit : List Char
deriving Repr

/-- The device's responses to the sub-queries `getChannelInfo` issues for one
(handle, channelIndex) pair. The device is modelled as deterministic per query:
`getChannelName` is issued twice (once directly, once inside `getFieldUnit`)
and both calls receive `channelName`. The statuses of the user-name queries and
of `getFieldInfo` are recorded even though the source ignores them; on a failed
`getFieldInfo` the `fieldInfo` payload is the stack garbage the source leaves in
`finfo`, hence arbitrary. -/
structure ChanQueries where
  channelName : EOakStatus × List Char
  userNamePersistent : EOakStatus × List Nat
  userNameVolatile : EOakStatus × List Nat
  fieldInfo : EOakStatus × hiddev_field_info

/-- `getChannelInfo` (`OakHidBase.cpp:328`): channel name first (failure
aborts); then both user names and the field descriptor, with their statuses
discarded; finally `getFieldUnit`, whose status is the function's result.
`prev` is the caller's `outChannelInfo`, whose fields survive on the paths
where the source does not assign them. -/
def getChannelInfo (q : ChanQueries) (prev : ChannelInfo) : EOakStatus × ChannelInfo :=
  if q.channelName.1 ≠ eOakStatusOK then (q.channelName.1, prev)
  else
    let finfo := q.fieldInfo.2
    let c : ChannelInfo :=
      { prev with
        channelName := q.channelName.2
        persistentUserChannelName := q.userNamePersistent.2
        volatileUserChannelName := q.userNameVolatile.2
        isSigned := isFieldSigned finfo
        bitSize := getFieldBitSize finfo
        unitExponent := getFieldExponent finfo
        unitCode := finfo.unit }
    let u := getFieldUnit q.channelName c.unit
    (u.1, { c with unit := u.2 })

/-- A device whose every feature-report read fails with `ReadError` (e.g. the
resource was closed under the session); sends would succeed. Stateless. -/
def failDev : OakDevice Unit where
  readFeature := fun s => (s, eOakStatusReadError, fun _ => 0)
  sendFeature := fun s _ => (s, eOakStatusOK)

/-- The simulated device of spec §8: every feature-report read succeeds and
returns the fixed payload `p` with the readiness byte (byte 0) forced to 0xff;
every send succeeds. The state counts reads and logs every sent report. -/
def happyDev (p : OakFeatureReport) : OakDevice (Nat × List OakFeatureReport) where
  readFeature := fun s =>
    ((s.1 + 1, s.2), eOakStatusOK, fun i => if i = 0 then 0xff else p i)
  sendFeature := fun s r => ((s.1, s.2 ++ [r]), eOakStatusOK)

/-- A stateless device whose reads return an all-0xff report and whose sends
succeed. -/
def constDev : OakDevice Unit where
  readFeature := fun s => (s, eOakStatusOK, fun _ => 0xff)
  sendFeature := fun s _ => (s, eOakStatusOK)

/-- Instrumentation wrapper: behaves exactly like `dev`, additionally logging
every report passed to `sendFeature`. -/
def logged {σ : Type} (dev : OakDevice σ) : OakDevice (σ × List OakFeatureReport) where
  readFeature := fun s =>
    let r := dev.readFeature s.1
    ((r.1, s.2), r.2.1, r.2.2)
  sendFeature := fun s rep =>
    let r := dev.sendFeature s.1 rep
    ((r.1, s.2 ++ [rep]), r.2)

/-- `sizeof(struct hiddev_event)`: two 32-bit fields (`hid`, `value`), 8 bytes. -/
def eventSize : Nat := 8

/-- `std::vector<int>::resize(n)`: truncate, or pad with value-initialised
(zero) elements. -/
def vecResize (v : List Int) (n : Nat) : List Int :=
  if n ≤ v.length then v.take n else v ++ List.replicate (n - v.length) 0

/-- The copy loop of `readInterruptReport`: `for (i = 0; i < kCount; i++)
out[i] = ev[i].value`, processing indices `0..k-1` in order. -/
def fillValues (ev : Nat → Int) (out : List Int) : Nat → List Int
  | 0 => out
  | k + 1 => (fillValues ev out k).set k (ev k)

/-- `readInterruptReport` (`OakHidBase.cpp:359`): `rd` is the byte count the
blocking `read` returned (negative on error) and `ev` the values of the events
it deposited. Fewer bytes than one event is a `ReadError` with the caller's
vector untouched; otherwise the vector is resized only when its length differs
from the event count, then filled in event order. The third component records
whether a resize occurred. -/
def readInterruptReport (rd : Int) (ev : Nat → Int) (outReadValues : List Int) :
    EOakStatus × List Int × Bool :=
  if rd < (eventSize : Int) then (eOakStatusReadError, outReadValues, false)
  else
    let kCount := rd.toNat / eventSize
    let rs :=
      if kCount ≠ outReadValues.length then (vecResize outReadValues kCount, true)
      else (outReadValues, false)
    (eOakStatusOK, fillValues ev rs.1 kCount, rs.2)

/-! ## Helper lemmas -/

/-- The clamped string of `putStringInReport` has length `min (length) 20`. -/
lemma putString_clamped_length (s : List Nat) :
    (if s.length > 20 then s.take 20 else s).length = min s.length 20 := by
  split_ifs with h
  · simp only [List.length_take]
    omega
  · omega

/-- A bounded C-string scan from offset `i ≤ 21` in a report whose byte 21 is
zero yields at most `21 - i` bytes. -/
lemma cStringAux_length_le (r : OakFeatureReport) (h21 : r 21 = 0) :
    ∀ fuel i, i ≤ 21 → (cStringAux r fuel i).length ≤ 21 - i := by
  intro fuel
  induction fuel with
  | zero => intro i _; simp [cStringAux]
  | succ n ih =>
    intro i hi
    simp only [cStringAux]
    split_ifs with h0
    · simp
    · have hne : i ≠ 21 := fun he => h0 (he ▸ h21)
      have hrec := ih (i + 1) (by omega)
      simp only [List.length_cons]
      omega

/-! ## Claims -/

/-- C4: for raw unit-exponent values in 0..15, `getFieldExponent` returns
`raw − 16` when `raw ≥ 8` and `raw` itself when `raw < 8`. -/
theorem c4_getFieldExponent (f : hiddev_field_info) (h : f.unit_exponent ≤ 15) :
    (8 ≤ f.unit_exponent → getFieldExponent f = (f.unit_exponent : Int) - 16) ∧
    (f.unit_exponent < 8 → getFieldExponent f = (f.unit_exponent : Int)) := by
  unfold getFieldExponent
  constructor
  · intro h8; rw [if_pos h8]
  · intro h8; rw [if_neg (by omega)]

/-- Witness for C4 at raw value 15: the exponent decodes to 15 − 16 = −1. -/
theorem c4_witness :
    getFieldExponent
      { physical_minimum := 0, physical_maximum := 0, unit_exponent := 15, unit := 0 } =
      (15 : Int) - 16 :=
  (c4_getFieldExponent _ (by decide)).1 (by decide)

/-- C5: `getFieldBitSize` returns the smallest of the widths 8/16/32/64 whose
unsigned range covers `physical_maximum − physical_minimum`. -/
theorem c5_getFieldBitSize (f : hiddev_field_info) :
    (f.physical_maximum - f.physical_minimum ≤ 0xff → getFieldBitSize f = 8) ∧
    (0xff < f.physical_maximum - f.physical_minimum →
      f.physical_maximum - f.physical_minimum ≤ 0xffff → getFieldBitSize f = 16) ∧
    (0xffff < f.physical_maximum - f.physical_minimum →
      f.physical_maximum - f.physical_minimum ≤ 0xffffffff → getFieldBitSize f = 32) ∧
    (0xffffffff < f.physical_maximum - f.physical_minimum → getFieldBitSize f = 64) := by
  simp only [getFieldBitSize]
  refine ⟨?_, ?_, ?_, ?_⟩ <;> intros <;> split_ifs <;> omega

/-- Witness for C5 at physical range 65536 (= 0x10000): bit size 32. -/
theorem c5_witness :
    getFieldBitSize
      { physical_minimum := 0, physical_maximum := 65536, unit_exponent := 0, unit := 0 } = 32 :=
  (c5_getFieldBitSize _).2.2.1 (by decide) (by decide)

/-- C6: `putStringInReport` always returns OK, writes the first
`min (length, 20)` bytes of the string at offsets 5 onward, and leaves every
byte outside offsets 5..24 unchanged (in particular it never writes beyond
byte 24, and bytes past the copied string are also untouched). -/
theorem c6_putStringInReport (report : OakFeatureReport) (s : List Nat) :
    (putStringInReport report s).1 = eOakStatusOK ∧
    (∀ j, j < min s.length 20 → (putStringInReport report s).2 (5 + j) = s.getD j 0) ∧
    (∀ i, i < 5 ∨ 24 < i → (putStringInReport report s).2 i = report i) ∧
    (∀ i, 5 + min s.length 20 ≤ i → (putStringInReport report s).2 i = report i) := by
  refine ⟨rfl, ?_, ?_, ?_⟩
  · intro j hj
    simp only [putStringInReport]
    rw [putString_clamped_length, if_pos (by omega)]
    have h5 : 5 + j - 5 = j := by omega
    rw [h5]
    split_ifs with h
    · rw [List.getD_eq_getElem?_getD, List.getD_eq_getElem?_getD, List.getElem?_take,
        if_pos (by omega)]
    · rfl
  · intro i hi
    simp only [putStringInReport]
    rw [putString_clamped_length, if_neg (by omega)]
  · intro i hi
    simp only [putStringInReport]
    rw [putString_clamped_length, if_neg (by omega)]

/-- Witness for C6 on a concrete report and 2-byte string: the bytes land at
offsets 5 and 6, and offsets 4, 7 and 30 keep their previous value. -/
theorem c6_witness :
    (putStringInReport (fun _ => 9) [3, 4]).1 = eOakStatusOK ∧
    (putStringInReport (fun _ => 9) [3, 4]).2 (5 + 1) = [3, 4].getD 1 0 ∧
    (putStringInReport (fun _ => 9) [3, 4]).2 30 = 9 ∧
    (putStringInReport (fun _ => 9) [3, 4]).2 7 = 9 :=
  ⟨(c6_putStringInReport (fun _ => 9) [3, 4]).1,
   (c6_putStringInReport (fun _ => 9) [3, 4]).2.1 1 (by decide),
   (c6_putStringInReport (fun _ => 9) [3, 4]).2.2.1 30 (by decide),
   (c6_putStringInReport (fun _ => 9) [3, 4]).2.2.2 7 (by decide)⟩

/-- C9: `getStringFromReport` always returns OK, zeroes byte 21, leaves every
other byte unchanged, and the extracted NUL-terminated string starting at
offset 1 has length at most 20. -/
theorem c9_getStringFromReport (report : OakFeatureReport) :
    (getStringFromReport report).1 = eOakStatusOK ∧
    (getStringFromReport report).2.1 21 = 0 ∧
    (∀ i, i ≠ 21 → (getStringFromReport report).2.1 i = report i) ∧
    (getStringFromReport report).2.2.length ≤ 20 := by
  refine ⟨rfl, by simp [getStringFromReport], ?_, ?_⟩
  · intro i hi
    simp only [getStringFromReport]
    rw [if_neg hi]
  · simp only [getStringFromReport]
    have h21 : (fun i => if i = 21 then 0 else report i) 21 = 0 := by simp
    have := cStringAux_length_le (fun i => if i = 21 then 0 else report i) h21 21 1 (by omega)
    omega

/-- Witness for C9 on the all-7 report: byte 21 becomes 0, byte 3 stays 7, and
the extracted string has length at most 20. -/
theorem c9_witness :
    (getStringFromReport (fun _ => 7)).2.1 21 = 0 ∧
    (getStringFromReport (fun _ => 7)).2.1 3 = 7 ∧
    (getStringFromReport (fun _ => 7)).2.2.length ≤ 20 :=
  ⟨(c9_getStringFromReport (fun _ => 7)).2.1,
   (c9_getStringFromReport (fun _ => 7)).2.2.1 3 (by decide),
   (c9_getStringFromReport (fun _ => 7)).2.2.2⟩

/-- C2 counterexample: on the channel name `"[]"` the last `]` (index 1) is
strictly after the last `[` (index 0), so the claim predicts success with the
empty unit string — but the source's `end <= begin` test (with `begin` already
incremented past the bracket) yields `InternalError`. -/
theorem c2_counterexample :
    (getFieldUnit (eOakStatusOK, ['[', ']']) []).1 = eOakStatusInternalError ∧
    rfind ['[', ']'] '[' = some 0 ∧
    rfind ['[', ']'] ']' = some 1 ∧
    ¬(1 ≤ 0) := by decide

/-- C2 (amended): `getFieldUnit` on a successfully queried name fails with
`InternalError` exactly when the name has no `[`, or no `]`, or the last `]`
is at or before the position immediately after the last `[` (so an empty unit
`"[]"` is also rejected); otherwise it returns OK and the substring strictly
between the last `[` and the last `]`. -/
theorem c2_getFieldUnit_amended (name : List Char) :
    ((getFieldUnit (eOakStatusOK, name) []).1 = eOakStatusInternalError ↔
      rfind name '[' = none ∨ rfind name ']' = none ∨
      ∃ b e, rfind name '[' = some b ∧ rfind name ']' = some e ∧ e ≤ b + 1) ∧
    (∀ b e, rfind name '[' = some b → rfind name ']' = some e → b + 1 < e →
      getFieldUnit (eOakStatusOK, name) [] =
        (eOakStatusOK, (name.drop (b + 1)).take (e - (b + 1)))) := by
  constructor
  · simp only [getFieldUnit, ne_eq, not_true_eq_false, if_false]
    cases hb : rfind name '[' with
    | none => simp [hb]
    | some b =>
      cases he : rfind name ']' with
      | none => simp [hb, he]
      | some e =>
        simp only [hb, he]
        split_ifs with hle
        · simp only [true_iff]
          exact Or.inr (Or.inr ⟨b, e, rfl, rfl, hle⟩)
        · simp only [reduceCtorEq, false_iff, not_or]
          refine ⟨by simp, by simp, ?_⟩
          rintro ⟨b', e', hb', he', hle'⟩
          rw [Option.some_inj] at hb' he'
          omega
  · intro b e hb he hlt
    simp only [getFieldUnit, ne_eq, not_true_eq_false, if_false, hb, he]
    rw [if_neg (by omega)]

/-- Witness for the amended C2 at the spec's example `"Temperature [°C]"`:
the last `[` is at index 12, the last `]` at index 15, and the extracted unit
is `"°C"`. -/
theorem c2_amended_witness :
    getFieldUnit (eOakStatusOK, "Temperature [°C]".toList) [] =
      (eOakStatusOK, "°C".toList) :=
  (c2_getFieldUnit_amended "Temperature [°C]".toList).2 12 15
    (by decide) (by decide) (by decide)

/-! Helper lemmas for C7. -/

lemma vecResize_length (v : List Int) (n : Nat) : (vecResize v n).length = n := by
  unfold vecResize
  split_ifs with h
  · simp only [List.length_take]; omega
  · simp only [List.length_append, List.length_replicate]; omega

lemma fillValues_length (ev : Nat → Int) (out : List Int) (k : Nat) :
    (fillValues ev out k).length = out.length := by
  induction k with
  | zero => rfl
  | succ n ih => simp [fillValues, List.length_set, ih]

lemma fillValues_getD (ev : Nat → Int) (out : List Int) :
    ∀ k, k ≤ out.length → ∀ i, i < k → (fillValues ev out k).getD i 0 = ev i := by
  intro k
  induction k with
  | zero => intro _ i hi; omega
  | succ n ih =>
    intro hk i hi
    simp only [fillValues]
    by_cases hin : i = n
    · rw [hin]
      have hlen : n < (fillValues ev out n).length := by rw [fillValues_length]; omega
      rw [List.getD_eq_getElem?_getD, List.getElem?_set_self hlen]
      rfl
    · rw [List.getD_eq_getElem?_getD, List.getElem?_set_ne (fun hne => hin hne.symm),
        ← List.getD_eq_getElem?_getD]
      exact ih (by omega) i (by omega)

/-- C7: `readInterruptReport` fails with `ReadError` (leaving the caller's
vector untouched, no resize) when the read returned fewer bytes than one
event; otherwise it returns OK, resizes exactly when the vector's length
differs from the number `N` of complete events, and fills positions 0..N−1
with the events' values in order. -/
theorem c7_readInterruptReport (rd : Int) (ev : Nat → Int) (prev : List Int) :
    (rd < (eventSize : Int) →
      readInterruptReport rd ev prev = (eOakStatusReadError, prev, false)) ∧
    ((eventSize : Int) ≤ rd →
      (readInterruptReport rd ev prev).1 = eOakStatusOK ∧
      (readInterruptReport rd ev prev).2.2 = decide (rd.toNat / eventSize ≠ prev.length) ∧
      (readInterruptReport rd ev prev).2.1.length = rd.toNat / eventSize ∧
      (∀ i, i < rd.toNat / eventSize →
        (readInterruptReport rd ev prev).2.1.getD i 0 = ev i)) := by
  constructor
  · intro hlt
    simp only [readInterruptReport]
    rw [if_pos hlt]
  · intro hge
    simp only [readInterruptReport]
    rw [if_neg (by omega)]
    by_cases hn : rd.toNat / eventSize = prev.length
    · rw [if_neg (fun hne => hne hn)]
      refine ⟨rfl, by simp [hn], ?_, ?_⟩
      · rw [fillValues_length]; exact hn.symm
      · intro i hi
        exact fillValues_getD ev prev _ (le_of_eq hn) i hi
    · rw [if_pos hn]
      refine ⟨rfl, by simp [hn], ?_, ?_⟩
      · rw [fillValues_length, vecResize_length]
      · intro i hi
        exact fillValues_getD ev (vecResize prev _) _ (by rw [vecResize_length]) i hi

/-- Witness for C7: a 16-byte read (two events, values 10 and 11) into an
empty vector resizes it and fills both positions; a 4-byte read fails. -/
theorem c7_witness :
    readInterruptReport 4 (fun i => 10 + i) [] = (eOakStatusReadError, [], false) ∧
    (readInterruptReport 16 (fun i => 10 + i) []).2.1.getD 1 0 = 10 + 1 ∧
    (readInterruptReport 16 (fun i => 10 + i) []).2.2 = true :=
  ⟨(c7_readInterruptReport 4 (fun i => 10 + i) []).1 (by decide),
   (c7_readInterruptReport 16 (fun i => 10 + i) []).2 (by decide) |>.2.2.2 1 (by decide),
   by
     have h := (c7_readInterruptReport 16 (fun i => 10 + i) []).2 (by decide) |>.2.1
     simpa using h⟩

/-- C3: against a device whose reads always succeed with readiness byte 0xff
(`happyDev`), a transaction performs exactly one send — of the caller's report
— and returns OK, with the caller's buffer overwritten by the simulated reply,
i.e. the device payload unchanged except for the readiness byte. The final
state records two reads (one per polling loop) and the single-send log. -/
theorem c3_happy_transaction (p report : OakFeatureReport) (fuel : Nat)
    (h : 1 ≤ fuel) :
    sendReportAndWaitForReply (happyDev p) fuel (0, []) report =
      some ((2, [report]), eOakStatusOK, fun i => if i = 0 then 0xff else p i) := by
  obtain ⟨k, rfl⟩ : ∃ k, fuel = k + 1 := ⟨fuel - 1, by omega⟩
  rfl

/-- Witness for C3 at the zero payload and zero command report with fuel 1. -/
theorem c3_witness :
    sendReportAndWaitForReply (happyDev (fun _ => 0)) 1 (0, []) (fun _ => 0) =
      some ((2, [fun _ => 0]), eOakStatusOK, fun i => if i = 0 then 0xff else 0) :=
  c3_happy_transaction (fun _ => 0) (fun _ => 0) 1 (by decide)

/-- The WaitReady/WaitReply polling loop never sends: under the logging
wrapper, the send log at loop exit is the log at loop entry. -/
lemma waitLoop_logged_log {σ : Type} (dev : OakDevice σ) :
    ∀ fuel (s : σ) (log : List OakFeatureReport) buf out,
      waitLoop (logged dev) fuel (s, log) buf = some out → out.1.2 = log := by
  intro fuel
  induction fuel with
  | zero => intro s log buf out h; simp [waitLoop] at h
  | succ n ih =>
    intro s log buf out h
    simp only [waitLoop, logged] at h
    split_ifs at h with h1 h2
    · rw [Option.some_inj] at h
      rw [← h]
    · exact ih _ _ _ _ h
    · rw [Option.some_inj] at h
      rw [← h]

/-- C8: the protocol engine never modifies the caller's report before sending:
every report passed to the device's send primitive during a completed
`sendReportAndWaitForReply` transaction is byte-for-byte the caller's report
(the send log grows by at most the one entry `[report]`). -/
theorem c8_sends_exactly_callers_report {σ : Type} (dev : OakDevice σ)
    (fuel : Nat) (s : σ) (log : List OakFeatureReport) (report : OakFeatureReport)
    (out : (σ × List OakFeatureReport) × EOakStatus × OakFeatureReport)
    (h : sendReportAndWaitForReply (logged dev) fuel (s, log) report = some out) :
    out.1.2 = log ∨ out.1.2 = log ++ [report] := by
  unfold sendReportAndWaitForReply at h
  cases hw : waitLoop (logged dev) fuel (s, log) (fun _ => 0) with
  | none => rw [hw] at h; exact absurd h (by simp)
  | some w =>
    rw [hw] at h
    obtain ⟨⟨s1, log1⟩, st, buf⟩ := w
    have hlog1 : log1 = log := waitLoop_logged_log dev fuel s log _ _ hw
    subst hlog1
    simp only at h
    split_ifs at h with hst hsd
    · -- send succeeded; the second loop sends nothing further
      simp only [logged] at h
      exact Or.inr ((waitLoop_logged_log dev fuel _ _ _ _ h).symm ▸
        (waitLoop_logged_log dev fuel _ _ _ _ h))
    · -- send failed; it was still given the caller's report
      rw [Option.some_inj] at h
      rw [← h]
      exact Or.inr rfl
    · -- WaitReady aborted: nothing was sent
      rw [Option.some_inj] at h
      rw [← h]
      exact Or.inl rfl

/-- Witness for C8: one transaction against `constDev` starting with an empty
log sends exactly the caller's report `fun _ => 5`. -/
theorem c8_witness :
    ([fun _ => 5] : List OakFeatureReport) = [] ∨
      ([fun _ => 5] : List OakFeatureReport) = [] ++ [fun _ => 5] :=
  c8_sends_exactly_callers_report constDev 1 () [] (fun _ => 5)
    (((), [fun _ => 5]), eOakStatusOK, fun _ => 0xff) rfl

/-- C1 (exhibiting the divergence): on a device whose first feature-report
read fails with `ReadError`, the protocol engine returns `ReadError`, yet
`getUserDeviceName` and `getUserChannelName` discard that status and return
`eOakStatusOK` (the status of the never-failing string decode), with the
string decoded from the stale command buffer (empty, since byte 1 of the
non-persistent command is 0). -/
theorem c1_engine_error_discarded :
    (sendReportAndWaitForReply failDev 1 () (fun _ => 0)).map (fun x => x.2.1) =
      some eOakStatusReadError ∧
    getUserDeviceName failDev 1 () false = some ((), eOakStatusOK, []) ∧
    getUserChannelName failDev 1 () 2 false = some ((), eOakStatusOK, []) :=
  ⟨rfl, rfl, rfl⟩

/-- C10: the status of `getChannelInfo` does not depend on the result of the
field-descriptor query, and equals the channel-name status when that is not OK
and the unit-name status otherwise. -/
theorem c10_status_ignores_fieldInfo (q : ChanQueries) (prev : ChannelInfo)
    (fi fi' : EOakStatus × hiddev_field_info) :
    (getChannelInfo { q with fieldInfo := fi } prev).1 =
      (getChannelInfo { q with fieldInfo := fi' } prev).1 ∧
    (getChannelInfo q prev).1 =
      (if q.channelName.1 = eOakStatusOK
       then (getFieldUnit q.channelName prev.unit).1
       else q.channelName.1) := by
  constructor
  · by_cases h : q.channelName.1 = eOakStatusOK
    · simp [getChannelInfo, h]
    · simp [getChannelInfo, h]
  · by_cases h : q.channelName.1 = eOakStatusOK
    · simp [getChannelInfo, h]
    · simp [getChannelInfo, h]

end OakHid
